import Mathlib

/-!
Verification development for the threads-connector repository.

The Go sources are shallowly embedded below.  Go strings are modelled as
lists of characters (`Str`), Go byte length as list length, and the remote
Threads Graph API as an explicit oracle (`Env`) whose answers drive the
sequencer; every remote call the client issues is recorded in a trace so
that properties about which calls are made can be stated and proved.
-/

set_option autoImplicit false

namespace ThreadsConnector

/-- Go strings, modelled as lists of characters. -/
abbrev Str := List Char

/-- Embed a Lean string literal into the model. -/
def str (s : String) : Str := s.toList

/-! ### Text chunker (internal/threads/client.go, lines 597-626) -/

/-- Character class used by Go's `strings.Fields` (`unicode.IsSpace` on the
whitespace characters relevant to strings). -/
def isSpace (c : Char) : Bool :=
  c = ' ' || c = '\t' || c = '\n' || c = '\x0b' || c = '\x0c' || c = '\r' ||
  c = '\u0085' || c = '\u00A0'

/-- Accumulator form of `strings.Fields`: scan the text, growing the current
word `cur`, emitting it whenever whitespace (or the end) is reached. -/
def fieldsAux : Str → Str → List Str
  | [], cur => if cur = [] then [] else [cur]
  | c :: cs, cur =>
    if isSpace c then
      if cur = [] then fieldsAux cs [] else cur :: fieldsAux cs []
    else fieldsAux cs (cur ++ [c])

/-- Model of Go `strings.Fields`: the whitespace-delimited words of `s`. -/
def fields (s : Str) : List Str := fieldsAux s []

/-- The word-accumulation loop of `splitText` (client.go lines 605-624):
for each word, if adding it (plus one space) to the current chunk would
exceed `limit`, flush the current chunk and start over with the word;
otherwise append the word to the current chunk.  At the end the current
chunk is flushed if non-empty. -/
def splitLoop (limit : Nat) (cur : Str) : List Str → List Str
  | [] => if cur = [] then [] else [cur]
  | w :: ws =>
    if limit < cur.length + w.length + 1 then
      cur :: splitLoop limit w ws
    else
      splitLoop limit (if cur = [] then w else cur ++ ' ' :: w) ws

/-- Model of `splitText` (client.go lines 598-626). -/
def splitText (text : Str) (limit : Nat) : List Str :=
  if text = [] then []
  else if text.length ≤ limit then [text]
  else splitLoop limit [] (fields text)

/-- Join a list of chunks with single separating spaces. -/
def joinSp : List Str → Str
  | [] => []
  | [c] => c
  | c :: cs => c ++ ' ' :: joinSp cs

/-- The whitespace-normalized (whitespace-collapsed) form of a text: its
words joined by single spaces.  This is the spec's notion used in §4.1. -/
def normalize (s : Str) : Str := joinSp (fields s)

/-! ### Remote client model (internal/threads/client.go, lines 235-501)

The remote Threads Graph API is modelled as an oracle `Env` answering the
three remote operations.  Transport, body-read and JSON-decode failures of
a call are merged into the `Except.error` answer of the oracle.  Every
remote call the client issues is recorded, together with the oracle's
answer, as a `Call` in a trace.  The `time.Sleep` delays do not affect any
observable data flow and are not modelled; the readiness deadline is
modelled by the seconds slept between polls. -/

/-- Character limit governing text chunking (client.go line 237). -/
def maxCharLimit : Nat := 500

/-- Polling deadline in seconds (client.go line 238). -/
def containerReadyTimeout : Nat := 30

/-- Polling interval in seconds (client.go line 239). -/
def containerCheckInterval : Nat := 2

/-- Arguments of a `createMediaContainer` call (client.go line 413). -/
structure CreateArgs where
  text : Str
  imageURL : Str
  replyToID : Str
  linkAttachment : Str
deriving DecidableEq

/-- The decoded body of a container-status poll (client.go lines 381-385). -/
structure StatusResp where
  status : Str
  errorMessage : Str
deriving DecidableEq

deriving instance DecidableEq for Except

/-- One remote call issued by the client, with the oracle's answer. -/
inductive Call where
  | create (args : CreateArgs) (result : Except Str Str)
  | poll (containerID : Str) (idx : Nat) (result : Except Str StatusResp)
  | publish (creationID : Str) (result : Except Str Str)
deriving DecidableEq

/-- The remote API oracle: answers for container creation, for the `idx`-th
status poll of a container, and for publishing. -/
structure Env where
  create : CreateArgs → Except Str Str
  polls : Str → Nat → Except Str StatusResp
  publish : Str → Except Str Str

/-- The status response signalling a finished container. -/
def finishedResp : StatusResp := ⟨str "FINISHED", []⟩

/-- Decimal rendering of a chunk index (`%d` in Go format strings). -/
def numStr (n : Nat) : Str := (Nat.repr n).toList

/-- The polling loop of `waitForContainerReady` (client.go lines 362-411):
while the deadline (30 s) has not elapsed, poll the container status;
`FINISHED`/`PUBLISHED` succeed, `ERROR`/`EXPIRED` fail with a
container-failure message, any other status sleeps 2 s and polls again.
`elapsed` counts the seconds slept so far, `idx` the polls issued. -/
def waitLoop (env : Env) (cid : Str) (idx elapsed : Nat) :
    Except Str Unit × List Call :=
  if elapsed < containerReadyTimeout then
    match env.polls cid idx with
    | .error e =>
      (.error (str "failed to check container status: " ++ e), [.poll cid idx (.error e)])
    | .ok st =>
      if st.status = str "FINISHED" then (.ok ⟨⟩, [.poll cid idx (.ok st)])
      else if st.status = str "PUBLISHED" then (.ok ⟨⟩, [.poll cid idx (.ok st)])
      else if st.status = str "ERROR" then
        (.error (str "container processing failed: " ++ st.errorMessage),
         [.poll cid idx (.ok st)])
      else if st.status = str "EXPIRED" then
        (.error (str "container expired before publishing"), [.poll cid idx (.ok st)])
      else
        let rest := waitLoop env cid (idx + 1) (elapsed + containerCheckInterval)
        (rest.1, .poll cid idx (.ok st) :: rest.2)
  else (.error (str "timeout waiting for container to be ready"), [])
termination_by containerReadyTimeout - elapsed
decreasing_by simp [containerReadyTimeout, containerCheckInterval] at *; omega

/-- Model of `waitForContainerReady` (client.go lines 362-411). -/
def waitForContainerReady (env : Env) (cid : Str) : Except Str Unit × List Call :=
  waitLoop env cid 0 0

/-- One create → wait-until-ready → publish cycle, shared by the four call
sites in `CreatePost`; `eCreate`, `eWait`, `ePublish` are the respective
`fmt.Errorf` wrapping prefixes of the call site. -/
def runUnit (env : Env) (a : CreateArgs) (eCreate eWait ePublish : Str) :
    Except Str Str × List Call :=
  match env.create a with
  | .error e => (.error (eCreate ++ e), [.create a (.error e)])
  | .ok cid =>
    match waitForContainerReady env cid with
    | (.error e, wtr) => (.error (eWait ++ e), .create a (.ok cid) :: wtr)
    | (.ok _, wtr) =>
      match env.publish cid with
      | .error e =>
        (.error (ePublish ++ e), .create a (.ok cid) :: (wtr ++ [.publish cid (.error e)]))
      | .ok pid =>
        (.ok pid, .create a (.ok cid) :: (wtr ++ [.publish cid (.ok pid)]))

/-- The chunk loop of `CreatePost` (client.go lines 268-300): publish each
chunk in order, attaching `imageURL` only at chunk index 0 and threading
the previously published id as `replyToID`; returns the pair
`(rootPostID, previousPostID)` after the loop. -/
def runChunks (env : Env) (imageURL : Str) :
    List Str → Nat → Str → Str → Except Str (Str × Str) × List Call
  | [], _, root, prev => (.ok (root, prev), [])
  | chunk :: rest, i, root, prev =>
    match runUnit env ⟨chunk, if i = 0 then imageURL else [], prev, []⟩
        (str "failed to create media container for chunk " ++ numStr i ++ str ": ")
        (str "container " ++ numStr i ++ str " not ready: ")
        (str "failed to publish chunk " ++ numStr i ++ str ": ") with
    | (.error e, tr) => (.error e, tr)
    | (.ok pid, tr) =>
      match runChunks env imageURL rest (i + 1) (if i = 0 then pid else root) pid with
      | (r, tr2) => (r, tr ++ tr2)

/-- Model of `CreatePost` (client.go lines 256-360): chunk the text, reject
if there is no content at all, publish the chunk chain, handle the
image-only case, then append the external URL as a trailing reply (or post
it as the root when nothing was published); return the root post id. -/
def CreatePost (env : Env) (text imageURL externalURL : Str) :
    Except Str Str × List Call :=
  let chunks := splitText text maxCharLimit
  if chunks = [] ∧ imageURL = [] ∧ externalURL = [] then
    (.error (str "no content to post"), [])
  else
    match runChunks env imageURL chunks 0 [] [] with
    | (.error e, tr0) => (.error e, tr0)
    | (.ok (root0, prev0), tr0) =>
      match
        (if chunks = [] ∧ imageURL ≠ [] then
          match runUnit env ⟨[], imageURL, [], []⟩
              (str "failed to create media container for image: ")
              (str "image container not ready: ")
              (str "failed to publish image: ") with
          | (.error e, tr) => (.error e, tr)
          | (.ok pid, tr) => (.ok (pid, pid), tr)
        else ((.ok (root0, prev0) : Except Str (Str × Str)), ([] : List Call))) with
      | (.error e, tr1) => (.error e, tr0 ++ tr1)
      | (.ok (root1, prev1), tr1) =>
        if externalURL ≠ [] ∧ prev1 ≠ [] then
          match runUnit env ⟨externalURL, [], prev1, []⟩
              (str "failed to create media container for URL reply: ")
              (str "URL container not ready: ")
              (str "failed to publish URL reply: ") with
          | (.error e, tr2) => (.error e, tr0 ++ tr1 ++ tr2)
          | (.ok _, tr2) => (.ok root1, tr0 ++ tr1 ++ tr2)
        else if externalURL ≠ [] then
          match runUnit env ⟨externalURL, [], [], []⟩
              (str "failed to create media container for URL: ")
              (str "URL container not ready: ")
              (str "failed to publish URL: ") with
          | (.error e, tr2) => (.error e, tr0 ++ tr1 ++ tr2)
          | (.ok pid, tr2) => (.ok pid, tr0 ++ tr1 ++ tr2)
        else (.ok root1, tr0 ++ tr1)

/-- The create-container calls of a trace, in order. -/
def createsOf (tr : List Call) : List CreateArgs :=
  tr.filterMap fun c =>
    match c with
    | .create a _ => some a
    | _ => none

/-- The successfully published ids of a trace, in order. -/
def pubsOf (tr : List Call) : List Str :=
  tr.filterMap fun c =>
    match c with
    | .publish _ (.ok pid) => some pid
    | _ => none

/-- The trace of one successful create → poll → publish cycle under an
always-succeeding oracle whose creation ids are `f` and published ids `g`. -/
def chainUnit (f : CreateArgs → Str) (g : Str → Str) (a : CreateArgs) : List Call :=
  [.create a (.ok (f a)), .poll (f a) 0 (.ok finishedResp),
   .publish (f a) (.ok (g (f a)))]

/-- The trace of the chunk loop under an always-succeeding oracle. -/
def chainTrace (f : CreateArgs → Str) (g : Str → Str) (img : Str) :
    List Str → Nat → Str → List Call
  | [], _, _ => []
  | c :: rest, i, prev =>
    chainUnit f g ⟨c, if i = 0 then img else [], prev, []⟩ ++
      chainTrace f g img rest (i + 1) (g (f ⟨c, if i = 0 then img else [], prev, []⟩))

/-- The value of `previousPostID` after the chunk loop under an
always-succeeding oracle. -/
def chainPrev (f : CreateArgs → Str) (g : Str → Str) (img : Str) :
    List Str → Nat → Str → Str
  | [], _, prev => prev
  | c :: rest, i, prev =>
    chainPrev f g img rest (i + 1) (g (f ⟨c, if i = 0 then img else [], prev, []⟩))

/-- The value of `rootPostID` after the chunk loop under an
always-succeeding oracle. -/
def chainRoot (f : CreateArgs → Str) (g : Str → Str) (img : Str)
    (chunks : List Str) (i : Nat) (root prev : Str) : Str :=
  match chunks, i with
  | [], _ => root
  | c :: _, 0 => g (f ⟨c, img, prev, []⟩)
  | _ :: _, _ + 1 => root

/-- A concrete always-succeeding oracle: creation ids prepend `'c'` to the
unit's text, published ids prepend `'p'` to the creation id. -/
def okCid (a : CreateArgs) : Str := 'c' :: a.text

/-- Published id assigned by `happyEnv` to a creation id. -/
def okPid (cid : Str) : Str := 'p' :: cid

/-- The concrete oracle built from `okCid`/`okPid` with every container
immediately `FINISHED`. -/
def happyEnv : Env :=
  ⟨fun a => .ok (okCid a), fun _ _ => .ok finishedResp, fun cid => .ok (okPid cid)⟩

/-- A 501-character text of two 250-character words, used to exercise the
chunking path concretely. -/
def wText : Str := List.replicate 250 'a' ++ ' ' :: List.replicate 250 'b'

/-- A concrete oracle whose status polls always report `IN_PROGRESS`. -/
def inProgEnv : Env :=
  ⟨fun a => .ok (okCid a), fun _ _ => .ok ⟨str "IN_PROGRESS", []⟩,
   fun cid => .ok (okPid cid)⟩

/-! ### HTTP-level model of container creation/publishing (client.go 413-548)

For claim C9 the two remote operations are modelled one level lower: as
functions of the HTTP response they received.  A response body is carried
both raw and as the result of the two `json.Unmarshal` attempts performed
by the code (`none` = the body is not valid JSON for that shape). -/

/-- The `error` object of the remote error envelope (client.go 538-548). -/
structure ApiErrorInfo where
  message : Str
  errType : Str
  code : Int
  errorSubcode : Int
  errorUserTitle : Str
  errorUserMsg : Str
  fbTraceID : Str
deriving DecidableEq

/-- A response body: the raw text, the result of unmarshalling it into
`APIErrorResponse` and the result of unmarshalling it into a string map
and indexing `"id"`. -/
structure Body where
  raw : Str
  envelope : Option ApiErrorInfo
  idField : Option Str
deriving DecidableEq

/-- An HTTP response: numeric status code, status line text, body. -/
structure HTTPResp where
  statusCode : Nat
  status : Str
  body : Body
deriving DecidableEq

/-- Model of `parseError` (client.go lines 519-536). -/
def parseError (body : Body) (status : Str) : Str :=
  match body.envelope with
  | none => str "API error: " ++ status ++ str " - " ++ body.raw
  | some e =>
    if e.message ≠ [] then
      str "API error: " ++ status ++ str " - " ++ e.message ++
        (if e.errorUserTitle ≠ [] then
          str " (" ++ e.errorUserTitle ++ str ": " ++ e.errorUserMsg ++ str ")"
        else [])
    else str "API error: " ++ status ++ str " - " ++ body.raw

/-- Model of `createMediaContainer`'s response handling (client.go lines
442-465): non-200 responses fail with `parseError`; otherwise the `id`
field of the decoded body is returned (decode failure surfaces the decoder
error, abstracted here). -/
def createMediaContainer (resp : HTTPResp) : Except Str Str :=
  if resp.statusCode = 200 then
    match resp.body.idField with
    | none => .error (str "failed to decode response body")
    | some id => .ok id
  else .error (parseError resp.body resp.status)

/-- Model of `publishMediaContainer`'s response handling (client.go lines
477-500), identical in shape to `createMediaContainer`. -/
def publishMediaContainer (resp : HTTPResp) : Except Str Str :=
  if resp.statusCode = 200 then
    match resp.body.idField with
    | none => .error (str "failed to decode response body")
    | some id => .ok id
  else .error (parseError resp.body resp.status)

/-! ### HTTP handler model (internal/server/server.go, lines 55-101) -/

/-- A decoded `POST /threads/post` request body. -/
structure PostRequest where
  text : Str
  imageURL : Str
  url : Str
deriving DecidableEq

/-- The decision `handlePost` reaches before (or instead of) invoking
`CreatePost`: one of the three early rejections, or the invocation of
`s.Client.CreatePost` with the given arguments. -/
inductive HandleOutcome where
  | methodNotAllowed
  | invalidBody
  | contentRequired
  | callCreate (text imageURL url : Str)
deriving DecidableEq

/-- Model of `handlePost` (server.go lines 65-101) up to the `CreatePost`
invocation: non-POST methods get 405, an undecodable body gets 400, a body
with empty `text` and empty `image_url` gets 400 (`contentRequired`),
anything else reaches `CreatePost(text, imageURL, url)`. -/
def handlePost (method : Str) (body : Option PostRequest) : HandleOutcome :=
  if method ≠ str "POST" then .methodNotAllowed
  else
    match body with
    | none => .invalidBody
    | some req =>
      if req.text = [] ∧ req.imageURL = [] then .contentRequired
      else .callCreate req.text req.imageURL req.url

/-! ### Basic lemmas about the chunker -/

theorem fieldsAux_ne_nil : ∀ (s cur : Str) (w : Str), w ∈ fieldsAux s cur → w ≠ []
  | [], cur, w, hw => by
    by_cases h : cur = [] <;> simp [fieldsAux, h] at hw
    simpa [hw] using h
  | c :: cs, cur, w, hw => by
    by_cases h : isSpace c
    · by_cases h2 : cur = []
      · simp [fieldsAux, h, h2] at hw
        exact fieldsAux_ne_nil cs [] w hw
      · simp [fieldsAux, h, h2] at hw
        rcases hw with hw | hw
        · simpa [hw] using h2
        · exact fieldsAux_ne_nil cs [] w hw
    · simp [fieldsAux, h] at hw
      exact fieldsAux_ne_nil cs (cur ++ [c]) w hw

theorem fields_ne_nil {s : Str} {w : Str} (hw : w ∈ fields s) : w ≠ [] :=
  fieldsAux_ne_nil s [] w hw

theorem fields_replicate_space : ∀ n : Nat, fields (List.replicate n ' ') = []
  | 0 => rfl
  | n + 1 => by
    show fieldsAux (' ' :: List.replicate n ' ') [] = []
    simpa [fieldsAux, isSpace] using fields_replicate_space n

/-- A text with no words (all whitespace) that is longer than the limit
splits into no chunks at all. -/
theorem splitText_of_no_words {t : Str} {limit : Nat} (hf : fields t = [])
    (hl : limit < t.length) : splitText t limit = [] := by
  have ht : t ≠ [] := by
    intro h
    rw [h] at hl
    simp at hl
  simp [splitText, ht, Nat.not_le.mpr hl, hf, splitLoop]

theorem splitLoop_ne_nil : ∀ (limit : Nat) (cur : Str) (ws : List Str),
    cur ≠ [] → splitLoop limit cur ws ≠ []
  | limit, cur, [], hcur => by simp [splitLoop, hcur]
  | limit, cur, w :: ws, hcur => by
    by_cases h : limit < cur.length + w.length + 1
    · simp [splitLoop, h]
    · have hcur' : (if cur = [] then w else cur ++ ' ' :: w) ≠ [] := by
        simp [hcur]
      simpa [splitLoop, h] using splitLoop_ne_nil limit _ ws hcur'

theorem joinSp_cons (c : Str) {l : List Str} (hl : l ≠ []) :
    joinSp (c :: l) = c ++ ' ' :: joinSp l := by
  cases l with
  | nil => exact absurd rfl hl
  | cons d ds => rfl

theorem joinSp_glue (a b : Str) (l : List Str) :
    joinSp ((a ++ ' ' :: b) :: l) = a ++ ' ' :: joinSp (b :: l) := by
  cases l with
  | nil => rfl
  | cons d ds =>
    rw [joinSp_cons (a ++ ' ' :: b) (l := d :: ds) (by simp),
      joinSp_cons b (l := d :: ds) (by simp)]
    simp

/-- Joining the chunks produced by the accumulation loop with single spaces
reproduces the join of the pending chunk and the remaining words, provided
the pending chunk and all words are non-empty. -/
theorem joinSp_splitLoop : ∀ (limit : Nat) (cur : Str) (ws : List Str),
    cur ≠ [] → (∀ x ∈ ws, x ≠ []) →
    joinSp (splitLoop limit cur ws) = joinSp (cur :: ws)
  | limit, cur, [], hcur, _ => by simp [splitLoop, hcur]
  | limit, cur, w :: ws, hcur, hws => by
    have hw : w ≠ [] := hws w (by simp)
    have hws' : ∀ x ∈ ws, x ≠ [] := fun x hx => hws x (by simp [hx])
    by_cases h : limit < cur.length + w.length + 1
    · rw [splitLoop, if_pos h,
        joinSp_cons cur (splitLoop_ne_nil limit w ws hw),
        joinSp_splitLoop limit w ws hw hws',
        joinSp_cons cur (l := w :: ws) (by simp)]
    · rw [splitLoop, if_neg h, if_neg hcur,
        joinSp_splitLoop limit (cur ++ ' ' :: w) ws (by simp [hcur]) hws',
        joinSp_glue, joinSp_cons cur (l := w :: ws) (by simp)]

/-! ### Lemmas about the client model -/

theorem wait_happy {env : Env} {cid : Str} (h : env.polls cid 0 = .ok finishedResp) :
    waitForContainerReady env cid = (.ok ⟨⟩, [.poll cid 0 (.ok finishedResp)]) := by
  rw [waitForContainerReady, waitLoop, if_pos (by decide), h]
  rfl

theorem runUnit_happy {env : Env} {f : CreateArgs → Str} {g : Str → Str}
    (hc : ∀ a, env.create a = .ok (f a))
    (hpoll : ∀ cid idx, env.polls cid idx = .ok finishedResp)
    (hp : ∀ cid, env.publish cid = .ok (g cid)) :
    ∀ (a : CreateArgs) (e1 e2 e3 : Str),
    runUnit env a e1 e2 e3 = (.ok (g (f a)), chainUnit f g a) := by
  intro a e1 e2 e3
  rw [runUnit]
  simp only [hc]
  rw [wait_happy (hpoll (f a) 0)]
  simp only [hp]
  rfl

theorem runUnit_trace_ne (env : Env) (a : CreateArgs) (e1 e2 e3 : Str) :
    (runUnit env a e1 e2 e3).2 ≠ [] := by
  rw [runUnit]
  rcases env.create a with e | cid
  · simp
  · dsimp only
    rcases waitForContainerReady env cid with ⟨r, wtr⟩
    rcases r with we | wu
    · simp
    · rcases env.publish cid with e | pid <;> simp

theorem createsOf_append (t1 t2 : List Call) :
    createsOf (t1 ++ t2) = createsOf t1 ++ createsOf t2 := by
  simp [createsOf]

theorem pubsOf_append (t1 t2 : List Call) :
    pubsOf (t1 ++ t2) = pubsOf t1 ++ pubsOf t2 := by
  simp [pubsOf]

theorem createsOf_chainUnit (f : CreateArgs → Str) (g : Str → Str) (a : CreateArgs) :
    createsOf (chainUnit f g a) = [a] := rfl

theorem pubsOf_chainUnit (f : CreateArgs → Str) (g : Str → Str) (a : CreateArgs) :
    pubsOf (chainUnit f g a) = [g (f a)] := rfl

theorem chainRoot_succ (f : CreateArgs → Str) (g : Str → Str) (img : Str)
    (chunks : List Str) (j : Nat) (root prev : Str) :
    chainRoot f g img chunks (j + 1) root prev = root := by
  cases chunks <;> rfl

theorem runChunks_happy {env : Env} {f : CreateArgs → Str} {g : Str → Str}
    (hc : ∀ a, env.create a = .ok (f a))
    (hpoll : ∀ cid idx, env.polls cid idx = .ok finishedResp)
    (hp : ∀ cid, env.publish cid = .ok (g cid)) (img : Str) :
    ∀ (chunks : List Str) (i : Nat) (root prev : Str),
    runChunks env img chunks i root prev =
      (.ok (chainRoot f g img chunks i root prev, chainPrev f g img chunks i prev),
       chainTrace f g img chunks i prev)
  | [], i, root, prev => by
    cases i <;> simp [runChunks, chainRoot, chainPrev, chainTrace]
  | c :: rest, i, root, prev => by
    cases i with
    | zero =>
      have hrec := runChunks_happy hc hpoll hp img rest 1
        (g (f ⟨c, img, prev, []⟩)) (g (f ⟨c, img, prev, []⟩))
      simp only [runChunks, runUnit_happy hc hpoll hp]
      simp only [if_true, eq_self_iff_true]
      rw [hrec]
      simp only [chainRoot_succ]
      rfl
    | succ j =>
      have hrec := runChunks_happy hc hpoll hp img rest (j + 1 + 1) root
        (g (f ⟨c, [], prev, []⟩))
      simp only [runChunks, runUnit_happy hc hpoll hp]
      simp only [Nat.succ_ne_zero, if_false]
      rw [hrec]
      simp only [chainRoot_succ]
      rfl

theorem createsOf_chainTrace_texts (f : CreateArgs → Str) (g : Str → Str) (img : Str) :
    ∀ (chunks : List Str) (i : Nat) (prev : Str),
    (createsOf (chainTrace f g img chunks i prev)).map CreateArgs.text = chunks
  | [], _, _ => rfl
  | c :: rest, i, prev => by
    simp [chainTrace, createsOf_append, createsOf_chainUnit,
      createsOf_chainTrace_texts f g img rest (i + 1) _]

theorem createsOf_chainTrace_length (f : CreateArgs → Str) (g : Str → Str) (img : Str) :
    ∀ (chunks : List Str) (i : Nat) (prev : Str),
    (createsOf (chainTrace f g img chunks i prev)).length = chunks.length
  | [], _, _ => rfl
  | c :: rest, i, prev => by
    simp [chainTrace, createsOf_append, createsOf_chainUnit,
      createsOf_chainTrace_length f g img rest (i + 1) _]

theorem pubsOf_chainTrace_length (f : CreateArgs → Str) (g : Str → Str) (img : Str) :
    ∀ (chunks : List Str) (i : Nat) (prev : Str),
    (pubsOf (chainTrace f g img chunks i prev)).length = chunks.length
  | [], _, _ => rfl
  | c :: rest, i, prev => by
    simp [chainTrace, pubsOf_append, pubsOf_chainUnit,
      pubsOf_chainTrace_length f g img rest (i + 1) _]

theorem createsOf_chainTrace_images (f : CreateArgs → Str) (g : Str → Str) (img : Str) :
    ∀ (chunks : List Str) (i : Nat) (prev : Str), i ≠ 0 →
    (createsOf (chainTrace f g img chunks i prev)).map CreateArgs.imageURL =
      List.replicate chunks.length []
  | [], _, _, _ => rfl
  | c :: rest, i, prev, hi => by
    simp [chainTrace, createsOf_append, createsOf_chainUnit, hi,
      createsOf_chainTrace_images f g img rest (i + 1) _ (Nat.succ_ne_zero i),
      List.replicate_succ]

theorem createsOf_chainTrace_replyTos (f : CreateArgs → Str) (g : Str → Str) (img : Str) :
    ∀ (chunks : List Str) (i : Nat) (prev : Str),
    (createsOf (chainTrace f g img chunks i prev)).map CreateArgs.replyToID =
      (prev :: pubsOf (chainTrace f g img chunks i prev)).take chunks.length
  | [], _, _ => rfl
  | c :: rest, i, prev => by
    simp [chainTrace, createsOf_append, pubsOf_append, createsOf_chainUnit,
      pubsOf_chainUnit, createsOf_chainTrace_replyTos f g img rest (i + 1) _]

theorem pubsOf_chainTrace_getLastD (f : CreateArgs → Str) (g : Str → Str) (img : Str) :
    ∀ (chunks : List Str) (i : Nat) (prev : Str),
    (pubsOf (chainTrace f g img chunks i prev)).getLastD prev =
      chainPrev f g img chunks i prev
  | [], _, _ => rfl
  | c :: rest, i, prev => by
    simp only [chainTrace, pubsOf_append, pubsOf_chainUnit, chainPrev,
      List.cons_append, List.nil_append, List.getLastD_cons]
    exact pubsOf_chainTrace_getLastD f g img rest (i + 1) _

theorem chainPrev_ne {g : Str → Str} (f : CreateArgs → Str) (img : Str)
    (hg : ∀ cid, g cid ≠ []) :
    ∀ (chunks : List Str) (i : Nat) (prev : Str), prev ≠ [] →
    chainPrev f g img chunks i prev ≠ []
  | [], _, _, h => h
  | c :: rest, i, prev, _ => chainPrev_ne f img hg rest (i + 1) _ (hg _)

theorem chainPrev_cons_ne {g : Str → Str} (f : CreateArgs → Str) (img : Str)
    (hg : ∀ cid, g cid ≠ []) (c : Str) (rest : List Str) (i : Nat) (prev : Str) :
    chainPrev f g img (c :: rest) i prev ≠ [] :=
  chainPrev_ne f img hg rest (i + 1) _ (hg _)

theorem createPost_happy_noUrl {env : Env} {f : CreateArgs → Str} {g : Str → Str}
    (hc : ∀ a, env.create a = .ok (f a))
    (hpoll : ∀ cid idx, env.polls cid idx = .ok finishedResp)
    (hp : ∀ cid, env.publish cid = .ok (g cid))
    (text img : Str) (hne : splitText text maxCharLimit ≠ []) :
    CreatePost env text img [] =
      (.ok (chainRoot f g img (splitText text maxCharLimit) 0 [] []),
       chainTrace f g img (splitText text maxCharLimit) 0 []) := by
  simp only [CreatePost]
  rw [if_neg (by simp [hne]), runChunks_happy hc hpoll hp]
  dsimp only
  rw [if_neg (by simp [hne])]
  simp

theorem createPost_happy_chunksUrl {env : Env} {f : CreateArgs → Str} {g : Str → Str}
    (hc : ∀ a, env.create a = .ok (f a))
    (hpoll : ∀ cid idx, env.polls cid idx = .ok finishedResp)
    (hp : ∀ cid, env.publish cid = .ok (g cid)) (hg : ∀ cid, g cid ≠ [])
    (text img url : Str) (hne : splitText text maxCharLimit ≠ []) (hurl : url ≠ []) :
    CreatePost env text img url =
      (.ok (chainRoot f g img (splitText text maxCharLimit) 0 [] []),
       chainTrace f g img (splitText text maxCharLimit) 0 [] ++
         chainUnit f g ⟨url, [], chainPrev f g img (splitText text maxCharLimit) 0 [], []⟩) := by
  obtain ⟨c, rest, hck⟩ := List.exists_cons_of_ne_nil hne
  have hprev : chainPrev f g img (splitText text maxCharLimit) 0 [] ≠ [] := by
    rw [hck]; exact chainPrev_cons_ne f img hg c rest 0 []
  simp only [CreatePost]
  rw [if_neg (by simp [hne]), runChunks_happy hc hpoll hp]
  dsimp only
  rw [if_neg (by simp [hne])]
  dsimp only
  rw [if_pos ⟨hurl, hprev⟩, runUnit_happy hc hpoll hp]
  simp

theorem createPost_happy_imageUrl {env : Env} {f : CreateArgs → Str} {g : Str → Str}
    (hc : ∀ a, env.create a = .ok (f a))
    (hpoll : ∀ cid idx, env.polls cid idx = .ok finishedResp)
    (hp : ∀ cid, env.publish cid = .ok (g cid)) (hg : ∀ cid, g cid ≠ [])
    (text img url : Str) (hnil : splitText text maxCharLimit = [])
    (himg : img ≠ []) (hurl : url ≠ []) :
    CreatePost env text img url =
      (.ok (g (f ⟨[], img, [], []⟩)),
       chainUnit f g ⟨[], img, [], []⟩ ++
         chainUnit f g ⟨url, [], g (f ⟨[], img, [], []⟩), []⟩) := by
  simp only [CreatePost]
  rw [if_neg (by simp [himg]), hnil]
  dsimp only [runChunks]
  rw [if_pos ⟨rfl, himg⟩, runUnit_happy hc hpoll hp]
  dsimp only
  rw [if_pos ⟨hurl, hg _⟩, runUnit_happy hc hpoll hp]
  simp

theorem createPost_happy_urlOnly {env : Env} {f : CreateArgs → Str} {g : Str → Str}
    (hc : ∀ a, env.create a = .ok (f a))
    (hpoll : ∀ cid idx, env.polls cid idx = .ok finishedResp)
    (hp : ∀ cid, env.publish cid = .ok (g cid))
    (text url : Str) (hnil : splitText text maxCharLimit = []) (hurl : url ≠ []) :
    CreatePost env text [] url =
      (.ok (g (f ⟨url, [], [], []⟩)), chainUnit f g ⟨url, [], [], []⟩) := by
  simp only [CreatePost]
  rw [if_neg (by simp [hurl]), hnil]
  dsimp only [runChunks]
  rw [if_neg (by simp)]
  dsimp only
  rw [if_neg (by simp), if_pos hurl, runUnit_happy hc hpoll hp]
  simp

theorem createPost_happy_trace_decomp {env : Env} {f : CreateArgs → Str} {g : Str → Str}
    (hc : ∀ a, env.create a = .ok (f a))
    (hpoll : ∀ cid idx, env.polls cid idx = .ok finishedResp)
    (hp : ∀ cid, env.publish cid = .ok (g cid))
    (text img url : Str) (hne : splitText text maxCharLimit ≠ []) :
    ∃ tail, (CreatePost env text img url).2 =
      chainTrace f g img (splitText text maxCharLimit) 0 [] ++ tail := by
  simp only [CreatePost]
  rw [if_neg (by simp [hne]), runChunks_happy hc hpoll hp]
  dsimp only
  rw [if_neg (by simp [hne])]
  dsimp only
  by_cases h1 : url ≠ [] ∧ chainPrev f g img (splitText text maxCharLimit) 0 [] ≠ []
  · rw [if_pos h1, runUnit_happy hc hpoll hp]
    exact ⟨chainUnit f g ⟨url, [], chainPrev f g img (splitText text maxCharLimit) 0 [], []⟩,
      by simp⟩
  · rw [if_neg h1]
    by_cases h2 : url ≠ []
    · rw [if_pos h2, runUnit_happy hc hpoll hp]
      exact ⟨chainUnit f g ⟨url, [], [], []⟩, by simp⟩
    · rw [if_neg h2]
      exact ⟨[], by simp⟩

theorem getD_append_self {α : Type} (l1 : List α) (a : α) (l2 : List α) (d : α) :
    (l1 ++ a :: l2).getD l1.length d = a := by
  induction l1 with
  | nil => simp
  | cons x xs ih => simpa using ih

theorem runUnit_trace_ne' (env : Env) (a : CreateArgs) (e1 e2 e3 : Str)
    (r : Except Str Str) (tr : List Call)
    (h : runUnit env a e1 e2 e3 = (r, tr)) : tr ≠ [] := by
  have h2 := runUnit_trace_ne env a e1 e2 e3
  rw [h] at h2
  exact h2

theorem runChunks_cons_trace_ne' (env : Env) (img c : Str) (cs : List Str)
    (i : Nat) (root prev : Str) (r : Except Str (Str × Str)) (tr : List Call)
    (h : runChunks env img (c :: cs) i root prev = (r, tr)) : tr ≠ [] := by
  dsimp only [runChunks] at h
  split at h
  · rename_i e tr1 heq
    obtain ⟨rfl, rfl⟩ := Prod.mk.injEq .. ▸ h
    exact runUnit_trace_ne' env _ _ _ _ _ _ heq
  · rename_i pid tr1 heq
    obtain ⟨rfl, rfl⟩ := Prod.mk.injEq .. ▸ h
    simp [runUnit_trace_ne' env _ _ _ _ _ _ heq]

/-- Whenever the empty-content guard does not fire, `CreatePost` issues at
least one remote call, whatever the oracle answers. -/
theorem createPost_trace_ne (env : Env) (text img url : Str)
    (h : ¬(splitText text maxCharLimit = [] ∧ img = [] ∧ url = [])) :
    (CreatePost env text img url).2 ≠ [] := by
  simp only [CreatePost]
  rw [if_neg h]
  rcases hck : splitText text maxCharLimit with _ | ⟨c, cs⟩
  · dsimp only [runChunks]
    by_cases himg : img = []
    · have hu : url ≠ [] := fun hu0 => h ⟨hck, himg, hu0⟩
      rw [if_neg (by simp [himg])]
      dsimp only
      rw [if_neg (by simp), if_pos hu]
      split
      · rename_i e tr2 heq
        simp [runUnit_trace_ne' env _ _ _ _ _ _ heq]
      · rename_i pid tr2 heq
        simp [runUnit_trace_ne' env _ _ _ _ _ _ heq]
    · rw [if_pos ⟨rfl, himg⟩]
      rcases hru : runUnit env ⟨[], img, [], []⟩
          (str "failed to create media container for image: ")
          (str "image container not ready: ")
          (str "failed to publish image: ") with ⟨ru, tr1⟩
      have htr1 := runUnit_trace_ne' env _ _ _ _ _ _ hru
      rcases ru with e | pid
      · simp [htr1]
      · dsimp only
        by_cases hco : url ≠ [] ∧ pid ≠ []
        · rw [if_pos hco]
          split <;> simp [htr1]
        · rw [if_neg hco]
          by_cases hu : url ≠ []
          · rw [if_pos hu]
            split <;> simp [htr1]
          · rw [if_neg hu]
            simp [htr1]
  · split
    · rename_i e tr0 heq
      simpa using runChunks_cons_trace_ne' env _ _ _ _ _ _ _ _ heq
    · rename_i root prev tr0 heq
      have htr0 := runChunks_cons_trace_ne' env _ _ _ _ _ _ _ _ heq
      rw [if_neg (by simp)]
      dsimp only
      by_cases hco : url ≠ [] ∧ prev ≠ []
      · rw [if_pos hco]
        split <;> simp [htr0]
      · rw [if_neg hco]
        by_cases hu : url ≠ []
        · rw [if_pos hu]
          split <;> simp [htr0]
        · rw [if_neg hu]
          simp [htr0]

/-- When every status poll of a container answers with a non-terminal
status, the polling loop runs into its deadline and reports a timeout. -/
theorem waitLoop_timeout {env : Env} {cid : Str}
    (hpoll : ∀ idx, ∃ stn, env.polls cid idx = .ok stn ∧
      stn.status ∉ [str "FINISHED", str "PUBLISHED", str "ERROR", str "EXPIRED"]) :
    ∀ (k idx elapsed : Nat), containerReadyTimeout - elapsed ≤ k →
    (waitLoop env cid idx elapsed).1 =
      .error (str "timeout waiting for container to be ready")
  | 0, idx, elapsed, hk => by
    have hge : ¬ elapsed < containerReadyTimeout := by
      simp only [containerReadyTimeout] at hk ⊢
      omega
    rw [waitLoop, if_neg hge]
  | k + 1, idx, elapsed, hk => by
    by_cases hlt : elapsed < containerReadyTimeout
    · obtain ⟨stn, hpn, hterm⟩ := hpoll idx
      simp only [List.mem_cons, List.not_mem_nil, or_false, not_or] at hterm
      obtain ⟨h1, h2, h3, h4⟩ := hterm
      rw [waitLoop, if_pos hlt, hpn]
      dsimp only
      rw [if_neg h1, if_neg h2, if_neg h3, if_neg h4]
      exact waitLoop_timeout hpoll k (idx + 1) (elapsed + containerCheckInterval)
        (by simp only [containerReadyTimeout, containerCheckInterval] at hk ⊢; omega)
    · rw [waitLoop, if_neg hlt]

/-! ### Claims about the chunker -/

/-- C5: the claim states that every chunk returned by `split(text, limit)` is
non-empty and of length at most `limit`, except that a single word longer
than `limit` is emitted as one oversized chunk.  The code violates the
non-emptiness part: when the text is longer than the limit and its first
word has length at least `limit`, the loop flushes the still-empty current
chunk, emitting a leading empty chunk.  This theorem evaluates the code at
the failing input `text = "aaa b"`, `limit = 3`. -/
theorem claim_c5_empty_chunk_eval :
    splitText (str "aaa b") 3 = [[], str "aaa", str "b"] ∧
    ([] : Str) ∈ splitText (str "aaa b") 3 := by
  decide

/-- C6 (amended): for every non-empty text `T` and positive limit, if
`len(T) ≤ limit` the single returned chunk is `T` itself verbatim (so the
whitespace-normalization property only holds for already-normalized text),
and if `len(T) > limit` and the first word of `T` is shorter than the
limit, concatenating the chunks of `split(T, limit)` in order with single
spaces yields exactly `T`'s whitespace-normalized form. -/
theorem claim_c6_join_normalized (T : Str) (limit : Nat) (hT : T ≠ []) :
    (T.length ≤ limit → splitText T limit = [T]) ∧
    (limit < T.length → ∀ w ws, fields T = w :: ws → w.length < limit →
      joinSp (splitText T limit) = normalize T) := by
  refine ⟨fun hle => by simp [splitText, hT, hle], fun hlt w ws hf hw => ?_⟩
  have hsplit : splitText T limit = splitLoop limit w ws := by
    rw [splitText, if_neg hT, if_neg (Nat.not_le.mpr hlt), hf, splitLoop]
    have hcond : ¬ limit < ([] : Str).length + w.length + 1 := by
      simp only [List.length_nil, Nat.zero_add]
      omega
    rw [if_neg hcond]
    simp
  have hwne : w ≠ [] := fields_ne_nil (s := T) (hf ▸ List.mem_cons_self w ws)
  have hwsne : ∀ x ∈ ws, x ≠ [] := fun x hx =>
    fields_ne_nil (s := T) (hf ▸ List.mem_cons_of_mem w hx)
  rw [hsplit, joinSp_splitLoop limit w ws hwne hwsne, normalize, hf]

/-- C6, counterexample to the claim as stated: joining the chunks with
single spaces does not always reproduce the whitespace-normalized input.
For `T = "a "` (trailing space, shorter than the limit) the text is
returned verbatim, un-normalized; for `T = "aaa b"` with `limit = 3` a
leading empty chunk makes the join start with a space. -/
theorem claim_c6_counterexample :
    joinSp (splitText (str "a ") 5) ≠ normalize (str "a ") ∧
    joinSp (splitText (str "aaa b") 3) ≠ normalize (str "aaa b") := by
  decide

theorem claim_c6_witness :
    joinSp (splitText (str "aa bb cc") 4) = normalize (str "aa bb cc") :=
  (claim_c6_join_normalized (str "aa bb cc") 4 (by decide)).2 (by decide)
    (str "aa") [str "bb", str "cc"] (by decide) (by decide)

/-- C7: `split("", limit)` returns the empty sequence, and every non-empty
text `T` with `len(T) ≤ limit` is returned as the single-element sequence
`[T]` (the empty text is exactly the case carved out by the first
conjunct). -/
theorem claim_c7_short_text (limit : Nat) :
    splitText [] limit = [] ∧
    ∀ T : Str, T ≠ [] → T.length ≤ limit → splitText T limit = [T] := by
  refine ⟨by simp [splitText], fun T hT hle => by simp [splitText, hT, hle]⟩

theorem claim_c7_witness :
    splitText [] 5 = [] ∧ splitText (str "ab") 5 = [str "ab"] :=
  ⟨(claim_c7_short_text 5).1, (claim_c7_short_text 5).2 (str "ab") (by decide) (by decide)⟩

/-- C8: the claim (from the spec's testable properties) states that a text
made of two words of length `limit` each joined by one space splits into
exactly two chunks, one word each.  The code instead emits a leading empty
chunk (the `len(cur)+len(word)+1 > limit` test flushes the empty current
chunk because the first word of length `limit` already fails it), so three
chunks come back.  This theorem evaluates the code at the failing input
`limit = 3`, `text = "aaa bbb"`. -/
theorem claim_c8_two_word_eval :
    splitText (str "aaa bbb") 3 = [[], str "aaa", str "bbb"] ∧
    (splitText (str "aaa bbb") 3).length ≠ 2 := by
  decide

/-! ### Claims about the publish sequencer -/

/-- C1: for every `CreatePost(text, imageURL, externalURL)` under an
always-succeeding remote oracle, when the text splits into n ≥ 2 chunks at
the 500-character limit, the first n created units carry exactly the
chunks in order, the first unit alone carries `imageURL` and has no
`replyToID`, and every later unit carries no image and a `replyToID` equal
to the id published for the previous unit — a linear reply chain in chunk
order. -/
theorem claim_c1_reply_chain {env : Env} {f : CreateArgs → Str} {g : Str → Str}
    (text img url : Str)
    (hc : ∀ a, env.create a = .ok (f a))
    (hpoll : ∀ cid idx, env.polls cid idx = .ok finishedResp)
    (hp : ∀ cid, env.publish cid = .ok (g cid))
    (hn : 2 ≤ (splitText text maxCharLimit).length) :
    ((createsOf (CreatePost env text img url).2).take
        (splitText text maxCharLimit).length).map CreateArgs.text =
      splitText text maxCharLimit ∧
    ((createsOf (CreatePost env text img url).2).take
        (splitText text maxCharLimit).length).map CreateArgs.imageURL =
      img :: List.replicate ((splitText text maxCharLimit).length - 1) [] ∧
    ((createsOf (CreatePost env text img url).2).take
        (splitText text maxCharLimit).length).map CreateArgs.replyToID =
      [] :: (pubsOf (CreatePost env text img url).2).take
        ((splitText text maxCharLimit).length - 1) := by
  have hne : splitText text maxCharLimit ≠ [] := by
    intro h
    rw [h] at hn
    simp at hn
  obtain ⟨tail, htr⟩ := createPost_happy_trace_decomp hc hpoll hp text img url hne
  have hclen := createsOf_chainTrace_length f g img (splitText text maxCharLimit) 0 []
  have hplen := pubsOf_chainTrace_length f g img (splitText text maxCharLimit) 0 []
  have htake : (createsOf (CreatePost env text img url).2).take
      (splitText text maxCharLimit).length =
      createsOf (chainTrace f g img (splitText text maxCharLimit) 0 []) := by
    rw [htr, createsOf_append, ← hclen, List.take_left]
  have hple : (splitText text maxCharLimit).length - 1 ≤
      (pubsOf (chainTrace f g img (splitText text maxCharLimit) 0 [])).length := by
    rw [hplen]; omega
  have hptake : (pubsOf (CreatePost env text img url).2).take
      ((splitText text maxCharLimit).length - 1) =
      (pubsOf (chainTrace f g img (splitText text maxCharLimit) 0 [])).take
        ((splitText text maxCharLimit).length - 1) := by
    rw [htr, pubsOf_append, List.take_append_of_le_length hple]
  refine ⟨?_, ?_, ?_⟩
  · rw [htake, createsOf_chainTrace_texts]
  · rw [htake]
    obtain ⟨c, rest, hck⟩ := List.exists_cons_of_ne_nil hne
    rw [hck]
    have him := createsOf_chainTrace_images f g img rest 1
      (g (f ⟨c, img, [], []⟩)) one_ne_zero
    simp [chainTrace, createsOf_append, createsOf_chainUnit, him]
  · rw [htake, createsOf_chainTrace_replyTos, hptake]
    obtain ⟨m, hm⟩ : ∃ m, (splitText text maxCharLimit).length = m + 1 :=
      ⟨(splitText text maxCharLimit).length - 1, by omega⟩
    rw [hm, List.take_succ_cons]
    simp

set_option maxRecDepth 40000 in
theorem claim_c1_witness :
    2 ≤ (splitText wText maxCharLimit).length ∧
    ((createsOf (CreatePost happyEnv wText (str "img") (str "url")).2).take
        (splitText wText maxCharLimit).length).map CreateArgs.text =
      splitText wText maxCharLimit ∧
    ((createsOf (CreatePost happyEnv wText (str "img") (str "url")).2).take
        (splitText wText maxCharLimit).length).map CreateArgs.imageURL =
      str "img" :: List.replicate ((splitText wText maxCharLimit).length - 1) [] ∧
    ((createsOf (CreatePost happyEnv wText (str "img") (str "url")).2).take
        (splitText wText maxCharLimit).length).map CreateArgs.replyToID =
      [] :: (pubsOf (CreatePost happyEnv wText (str "img") (str "url")).2).take
        ((splitText wText maxCharLimit).length - 1) :=
  ⟨by decide,
   claim_c1_reply_chain (f := okCid) (g := okPid) wText (str "img") (str "url")
     (fun _ => rfl) (fun _ _ => rfl) (fun _ => rfl) (by decide)⟩

/-- C2: for every `CreatePost(text, imageURL, externalURL)` with non-empty
`externalURL`, under an always-succeeding remote oracle with non-empty
published ids, exactly one create-container call beyond the m text/image
units is issued; it is last, its text is the URL, its `replyToID` is the
last previously published id (empty — a root post — when m = 0), and the
returned value is the first published id, not the URL reply's. -/
theorem claim_c2_url_trailing_reply {env : Env} {f : CreateArgs → Str} {g : Str → Str}
    (text img url : Str)
    (hc : ∀ a, env.create a = .ok (f a))
    (hpoll : ∀ cid idx, env.polls cid idx = .ok finishedResp)
    (hp : ∀ cid, env.publish cid = .ok (g cid))
    (hg : ∀ cid, g cid ≠ []) (hurl : url ≠ []) :
    (createsOf (CreatePost env text img url).2).length =
      ((splitText text maxCharLimit).length +
        (if splitText text maxCharLimit = [] ∧ img ≠ [] then 1 else 0)) + 1 ∧
    (pubsOf (CreatePost env text img url).2).length =
      ((splitText text maxCharLimit).length +
        (if splitText text maxCharLimit = [] ∧ img ≠ [] then 1 else 0)) + 1 ∧
    (createsOf (CreatePost env text img url).2).getD
        ((splitText text maxCharLimit).length +
          (if splitText text maxCharLimit = [] ∧ img ≠ [] then 1 else 0)) ⟨[], [], [], []⟩ =
      ⟨url, [],
       ((pubsOf (CreatePost env text img url).2).take
          ((splitText text maxCharLimit).length +
            (if splitText text maxCharLimit = [] ∧ img ≠ [] then 1 else 0))).getLastD [],
       []⟩ ∧
    (CreatePost env text img url).1 =
      .ok ((pubsOf (CreatePost env text img url).2).getD 0 []) := by
  by_cases hne : splitText text maxCharLimit = []
  · by_cases himg : img = []
    · rw [himg]
      rw [createPost_happy_urlOnly hc hpoll hp text url hne hurl]
      simp [hne, createsOf, pubsOf, chainUnit]
    · rw [createPost_happy_imageUrl hc hpoll hp hg text img url hne himg hurl]
      simp [hne, himg, createsOf, pubsOf, chainUnit]
  · rw [createPost_happy_chunksUrl hc hpoll hp hg text img url hne hurl]
    have hclen := createsOf_chainTrace_length f g img (splitText text maxCharLimit) 0 []
    have hplen := pubsOf_chainTrace_length f g img (splitText text maxCharLimit) 0 []
    refine ⟨?_, ?_, ?_, ?_⟩
    · simp [hne, createsOf_append, createsOf_chainUnit, hclen]
    · simp [hne, pubsOf_append, pubsOf_chainUnit, hplen]
    · have h1 : (createsOf (chainTrace f g img (splitText text maxCharLimit) 0 [] ++
          chainUnit f g ⟨url, [], chainPrev f g img (splitText text maxCharLimit) 0 [], []⟩)).getD
            ((splitText text maxCharLimit).length +
              (if splitText text maxCharLimit = [] ∧ img ≠ [] then 1 else 0)) ⟨[], [], [], []⟩ =
          (⟨url, [], chainPrev f g img (splitText text maxCharLimit) 0 [], []⟩ : CreateArgs) := by
        rw [createsOf_append, createsOf_chainUnit]
        simp only [hne, false_and, if_false, Nat.add_zero]
        rw [← hclen]
        exact getD_append_self _ _ [] _
      rw [h1]
      have h2 : (pubsOf (chainTrace f g img (splitText text maxCharLimit) 0 [] ++
          chainUnit f g ⟨url, [], chainPrev f g img (splitText text maxCharLimit) 0 [], []⟩)).take
            ((splitText text maxCharLimit).length +
              (if splitText text maxCharLimit = [] ∧ img ≠ [] then 1 else 0)) =
          pubsOf (chainTrace f g img (splitText text maxCharLimit) 0 []) := by
        rw [pubsOf_append]
        simp only [hne, false_and, if_false, Nat.add_zero]
        have hle2 : (splitText text maxCharLimit).length ≤
            (pubsOf (chainTrace f g img (splitText text maxCharLimit) 0 [])).length :=
          le_of_eq hplen.symm
        rw [List.take_append_of_le_length hle2, ← hplen, List.take_length]
      rw [h2, pubsOf_chainTrace_getLastD]
    · obtain ⟨c, rest, hck⟩ := List.exists_cons_of_ne_nil hne
      rw [hck]
      simp [chainTrace, chainRoot, pubsOf_append, pubsOf_chainUnit]

theorem claim_c2_witness :
    (createsOf (CreatePost happyEnv (str "hello") [] (str "url")).2).length =
      ((splitText (str "hello") maxCharLimit).length +
        (if splitText (str "hello") maxCharLimit = [] ∧ ([] : Str) ≠ [] then 1 else 0)) + 1 ∧
    (pubsOf (CreatePost happyEnv (str "hello") [] (str "url")).2).length =
      ((splitText (str "hello") maxCharLimit).length +
        (if splitText (str "hello") maxCharLimit = [] ∧ ([] : Str) ≠ [] then 1 else 0)) + 1 ∧
    (createsOf (CreatePost happyEnv (str "hello") [] (str "url")).2).getD
        ((splitText (str "hello") maxCharLimit).length +
          (if splitText (str "hello") maxCharLimit = [] ∧ ([] : Str) ≠ [] then 1 else 0))
        ⟨[], [], [], []⟩ =
      ⟨str "url", [],
       ((pubsOf (CreatePost happyEnv (str "hello") [] (str "url")).2).take
          ((splitText (str "hello") maxCharLimit).length +
            (if splitText (str "hello") maxCharLimit = [] ∧ ([] : Str) ≠ [] then 1
             else 0))).getLastD [],
       []⟩ ∧
    (CreatePost happyEnv (str "hello") [] (str "url")).1 =
      .ok ((pubsOf (CreatePost happyEnv (str "hello") [] (str "url")).2).getD 0 []) :=
  claim_c2_url_trailing_reply (f := okCid) (g := okPid) (str "hello") [] (str "url")
    (fun _ => rfl) (fun _ _ => rfl) (fun _ => rfl)
    (fun cid => by simp [okPid]) (by decide)

theorem createPost_no_content (env : Env) (text img url : Str)
    (h1 : splitText text maxCharLimit = []) (h2 : img = []) (h3 : url = []) :
    CreatePost env text img url = (.error (str "no content to post"), []) := by
  simp only [CreatePost]
  rw [if_pos ⟨h1, h2, h3⟩]

theorem handlePost_forwards (req : PostRequest) (h : req.text ≠ []) :
    handlePost (str "POST") (some req) =
      .callCreate req.text req.imageURL req.url := by
  simp [handlePost, h]

/-- C3 (amended): `CreatePost(text, imageURL, externalURL)` fails with the
empty-content error without issuing any remote call if and only if the text
chunks to nothing — it is empty or whitespace-only longer than the limit —
and `imageURL` and `externalURL` are both empty.  In particular
`CreatePost("", "", "")` fails this way with no remote call issued. -/
theorem claim_c3_empty_content (env : Env) (text img url : Str) :
    CreatePost env text img url = (.error (str "no content to post"), []) ↔
      splitText text maxCharLimit = [] ∧ img = [] ∧ url = [] := by
  constructor
  · intro heq
    by_contra hcond
    exact createPost_trace_ne env text img url hcond (by rw [heq])
  · intro hcond
    simp only [CreatePost]
    rw [if_pos hcond]

/-- C3, counterexample to the claim as stated: the "only if" direction
fails.  A text of 501 spaces (no words, longer than the 500-character
limit) with empty image and URL is also rejected with the empty-content
error and no remote call, although the text is not empty. -/
theorem claim_c3_counterexample :
    CreatePost happyEnv (List.replicate 501 ' ') [] [] =
      (.error (str "no content to post"), []) ∧
    List.replicate 501 ' ' ≠ ([] : Str) := by
  constructor
  · exact createPost_no_content happyEnv (List.replicate 501 ' ') [] []
      (splitText_of_no_words (fields_replicate_space 501)
        (by rw [List.length_replicate]; decide)) rfl rfl
  · intro hnil2
    have hlen := congrArg List.length hnil2
    rw [List.length_replicate] at hlen
    simp at hlen

theorem claim_c3_witness :
    CreatePost happyEnv [] [] [] = (.error (str "no content to post"), []) :=
  (claim_c3_empty_content happyEnv [] [] []).mpr ⟨rfl, rfl, rfl⟩

/-- C4: `waitForContainerReady` succeeds on the first poll reporting
`FINISHED` or `PUBLISHED`, fails immediately with the container-failure
message on `ERROR` and with the expiry message on `EXPIRED`, keeps polling
on any other status (`IN_PROGRESS` included), and reports a timeout when
every poll before the 30-second deadline is non-terminal. -/
theorem claim_c4_wait_states (env : Env) (cid : Str) (st : StatusResp)
    (h0 : env.polls cid 0 = .ok st) :
    ((st.status = str "FINISHED" ∨ st.status = str "PUBLISHED") →
      (waitForContainerReady env cid).1 = .ok ⟨⟩) ∧
    (st.status = str "ERROR" →
      (waitForContainerReady env cid).1 =
        .error (str "container processing failed: " ++ st.errorMessage)) ∧
    (st.status = str "EXPIRED" →
      (waitForContainerReady env cid).1 =
        .error (str "container expired before publishing")) ∧
    (st.status ∉ [str "FINISHED", str "PUBLISHED", str "ERROR", str "EXPIRED"] →
      (waitForContainerReady env cid).1 =
        (waitLoop env cid 1 containerCheckInterval).1) ∧
    ((∀ idx, ∃ stn, env.polls cid idx = .ok stn ∧
        stn.status ∉ [str "FINISHED", str "PUBLISHED", str "ERROR", str "EXPIRED"]) →
      (waitForContainerReady env cid).1 =
        .error (str "timeout waiting for container to be ready")) := by
  refine ⟨?_, ?_, ?_, ?_, ?_⟩
  · rintro (hs | hs) <;>
      · rw [waitForContainerReady, waitLoop, if_pos (by decide), h0]
        dsimp only
        simp [hs]
  · intro hs
    rw [waitForContainerReady, waitLoop, if_pos (by decide), h0]
    dsimp only
    rw [if_neg (by simp [hs]; decide), if_neg (by simp [hs]; decide), if_pos hs]
  · intro hs
    rw [waitForContainerReady, waitLoop, if_pos (by decide), h0]
    dsimp only
    rw [if_neg (by simp [hs]; decide), if_neg (by simp [hs]; decide),
      if_neg (by simp [hs]; decide), if_pos hs]
  · intro hs
    simp only [List.mem_cons, List.not_mem_nil, or_false, not_or] at hs
    obtain ⟨h1, h2, h3, h4⟩ := hs
    rw [waitForContainerReady, waitLoop, if_pos (by decide), h0]
    dsimp only
    rw [if_neg h1, if_neg h2, if_neg h3, if_neg h4]
    simp
  · intro hall
    exact waitLoop_timeout hall containerReadyTimeout 0 0 (by omega)

theorem claim_c4_witness :
    ((StatusResp.status ⟨str "IN_PROGRESS", []⟩ = str "FINISHED" ∨
        StatusResp.status ⟨str "IN_PROGRESS", []⟩ = str "PUBLISHED") →
      (waitForContainerReady inProgEnv (str "c")).1 = .ok ⟨⟩) ∧
    (StatusResp.status ⟨str "IN_PROGRESS", []⟩ = str "ERROR" →
      (waitForContainerReady inProgEnv (str "c")).1 =
        .error (str "container processing failed: " ++
          StatusResp.errorMessage ⟨str "IN_PROGRESS", []⟩)) ∧
    (StatusResp.status ⟨str "IN_PROGRESS", []⟩ = str "EXPIRED" →
      (waitForContainerReady inProgEnv (str "c")).1 =
        .error (str "container expired before publishing")) ∧
    (StatusResp.status ⟨str "IN_PROGRESS", []⟩ ∉
        [str "FINISHED", str "PUBLISHED", str "ERROR", str "EXPIRED"] →
      (waitForContainerReady inProgEnv (str "c")).1 =
        (waitLoop inProgEnv (str "c") 1 containerCheckInterval).1) ∧
    ((∀ idx, ∃ stn, inProgEnv.polls (str "c") idx = .ok stn ∧
        stn.status ∉ [str "FINISHED", str "PUBLISHED", str "ERROR", str "EXPIRED"]) →
      (waitForContainerReady inProgEnv (str "c")).1 =
        .error (str "timeout waiting for container to be ready")) :=
  claim_c4_wait_states inProgEnv (str "c") ⟨str "IN_PROGRESS", []⟩ rfl

/-- C9: whenever `createMediaContainer` or `publishMediaContainer` receives
a non-success HTTP status, the operation fails with the `parseError`
message, which carries the status line and the message parsed from the
remote JSON error envelope — including the user title and user message
when present — and falls back to the raw body text when the envelope
cannot be parsed. -/
theorem claim_c9_remote_error (respC respP : HTTPResp)
    (hC : respC.statusCode ≠ 200) (hP : respP.statusCode ≠ 200) :
    createMediaContainer respC = .error (parseError respC.body respC.status) ∧
    publishMediaContainer respP = .error (parseError respP.body respP.status) ∧
    (∀ (body : Body) (status : Str) (e : ApiErrorInfo), body.envelope = some e →
      e.message ≠ [] → e.errorUserTitle ≠ [] →
      parseError body status =
        str "API error: " ++ status ++ str " - " ++ e.message ++
          (str " (" ++ e.errorUserTitle ++ str ": " ++ e.errorUserMsg ++ str ")")) ∧
    (∀ (body : Body) (status : Str) (e : ApiErrorInfo), body.envelope = some e →
      e.message ≠ [] → e.errorUserTitle = [] →
      parseError body status = str "API error: " ++ status ++ str " - " ++ e.message) ∧
    (∀ (body : Body) (status : Str), body.envelope = none →
      parseError body status =
        str "API error: " ++ status ++ str " - " ++ body.raw) := by
  refine ⟨by simp [createMediaContainer, hC], by simp [publishMediaContainer, hP],
    ?_, ?_, ?_⟩
  · intro body status e henv hmsg htitle
    simp [parseError, henv, hmsg, htitle]
  · intro body status e henv hmsg htitle
    simp [parseError, henv, hmsg, htitle]
  · intro body status henv
    simp [parseError, henv]

theorem claim_c9_witness :
    createMediaContainer ⟨400, str "400 Bad Request", ⟨str "raw", none, none⟩⟩ =
      .error (parseError ⟨str "raw", none, none⟩ (str "400 Bad Request")) ∧
    publishMediaContainer ⟨500, str "500 Internal Server Error",
        ⟨str "oops", none, none⟩⟩ =
      .error (parseError ⟨str "oops", none, none⟩ (str "500 Internal Server Error")) ∧
    (∀ (body : Body) (status : Str) (e : ApiErrorInfo), body.envelope = some e →
      e.message ≠ [] → e.errorUserTitle ≠ [] →
      parseError body status =
        str "API error: " ++ status ++ str " - " ++ e.message ++
          (str " (" ++ e.errorUserTitle ++ str ": " ++ e.errorUserMsg ++ str ")")) ∧
    (∀ (body : Body) (status : Str) (e : ApiErrorInfo), body.envelope = some e →
      e.message ≠ [] → e.errorUserTitle = [] →
      parseError body status = str "API error: " ++ status ++ str " - " ++ e.message) ∧
    (∀ (body : Body) (status : Str), body.envelope = none →
      parseError body status =
        str "API error: " ++ status ++ str " - " ++ body.raw) :=
  claim_c9_remote_error ⟨400, str "400 Bad Request", ⟨str "raw", none, none⟩⟩
    ⟨500, str "500 Internal Server Error", ⟨str "oops", none, none⟩⟩
    (by decide) (by decide)

/-- C10 (amended): `handlePost` rejects with 400, before invoking
`CreatePost`, every decodable POST request in which both `text` and
`image_url` are empty, even when `url` is non-empty.  The URL-only root
path of `CreatePost` nevertheless remains reachable through the HTTP
interface: a request whose text is non-empty but chunks to nothing
(whitespace-only and longer than the 500-character limit), with empty
`image_url` and non-empty `url`, is forwarded to `CreatePost`, which then
publishes the external URL as the root post. -/
theorem claim_c10_handler_gate {env : Env} {f : CreateArgs → Str} {g : Str → Str}
    (hc : ∀ a, env.create a = .ok (f a))
    (hpoll : ∀ cid idx, env.polls cid idx = .ok finishedResp)
    (hp : ∀ cid, env.publish cid = .ok (g cid)) :
    (∀ req : PostRequest, req.text = [] → req.imageURL = [] →
      handlePost (str "POST") (some req) = .contentRequired) ∧
    (∀ t u : Str, t ≠ [] → splitText t maxCharLimit = [] → u ≠ [] →
      handlePost (str "POST") (some ⟨t, [], u⟩) = .callCreate t [] u ∧
      CreatePost env t [] u =
        (.ok (g (f ⟨u, [], [], []⟩)), chainUnit f g ⟨u, [], [], []⟩)) := by
  constructor
  · intro req h1 h2
    simp [handlePost, h1, h2]
  · intro t u ht hsplit hu
    exact ⟨by simp [handlePost, ht], createPost_happy_urlOnly hc hpoll hp t u hsplit hu⟩

/-- C10, counterexample to the claim as stated: the "consequently the
URL-only path is unreachable" part fails.  A whitespace-only text of 501
characters passes the handler's validation (text is non-empty), yet
`CreatePost` chunks it to nothing and publishes the external URL as the
root post — the trace is exactly one create/poll/publish cycle whose
create call carries the URL as text and no `replyToID`. -/
theorem claim_c10_counterexample :
    handlePost (str "POST") (some ⟨List.replicate 501 ' ', [], str "u"⟩) =
      .callCreate (List.replicate 501 ' ') [] (str "u") ∧
    (CreatePost happyEnv (List.replicate 501 ' ') [] (str "u")).2 =
      chainUnit okCid okPid ⟨str "u", [], [], []⟩ ∧
    (createsOf (CreatePost happyEnv (List.replicate 501 ' ') [] (str "u")).2).map
      CreateArgs.replyToID = [[]] := by
  have hnil : splitText (List.replicate 501 ' ') maxCharLimit = [] :=
    splitText_of_no_words (fields_replicate_space 501)
      (by rw [List.length_replicate]; decide)
  have hcp := @createPost_happy_urlOnly happyEnv okCid okPid
    (fun _ => rfl) (fun _ _ => rfl) (fun _ => rfl)
    (List.replicate 501 ' ') (str "u") hnil (by decide)
  have hne : List.replicate 501 ' ' ≠ ([] : Str) := by
    intro hnil2
    have hlen := congrArg List.length hnil2
    rw [List.length_replicate] at hlen
    simp at hlen
  refine ⟨handlePost_forwards ⟨List.replicate 501 ' ', [], str "u"⟩ hne, ?_, ?_⟩
  · rw [hcp]
  · rw [hcp]
    rfl

theorem claim_c10_witness :
    handlePost (str "POST") (some ⟨[], [], str "u"⟩) = .contentRequired ∧
    handlePost (str "POST") (some ⟨List.replicate 501 ' ', [], str "u"⟩) =
      .callCreate (List.replicate 501 ' ') [] (str "u") ∧
    CreatePost happyEnv (List.replicate 501 ' ') [] (str "u") =
      (.ok (okPid (okCid ⟨str "u", [], [], []⟩)),
       chainUnit okCid okPid ⟨str "u", [], [], []⟩) := by
  have h := @claim_c10_handler_gate happyEnv okCid okPid
    (fun _ => rfl) (fun _ _ => rfl) (fun _ => rfl)
  have hnil : splitText (List.replicate 501 ' ') maxCharLimit = [] :=
    splitText_of_no_words (fields_replicate_space 501)
      (by rw [List.length_replicate]; decide)
  have hne : List.replicate 501 ' ' ≠ ([] : Str) := by
    intro hnil2
    have hlen := congrArg List.length hnil2
    rw [List.length_replicate] at hlen
    simp at hlen
  have h2 := h.2 (List.replicate 501 ' ') (str "u") hne hnil (by decide)
  exact ⟨h.1 ⟨[], [], str "u"⟩ rfl rfl, h2.1, h2.2⟩

end ThreadsConnector
